import Mathlib

/-!
# Recman-2: recording session lifecycle

A shallow embedding of `src/index.js` (the Discord voice recorder): the
registry `recordings`, `formatFilename`, `startRecording`, `stopRecording`
and `uploadToGoogleDrive`, followed by the properties of the specification
that concern them.

Modelling conventions.

* Discord ids (channel, guild, member) are snowflakes: canonical decimal
  strings of unsigned integers.  They are represented by their numeric value
  (`Snowflake = Nat`), and `toString` gives back the string that the source
  interpolates into file names.
* `recordings` and every session are plain JavaScript objects used as
  dictionaries.  `JsObj` keeps the own properties in creation order, with
  distinct keys, and `JsObj.keys` enumerates them the way `Object.keys` does.
* Everything the outside world decides (the clock, the directory of the
  script, the outcome of the ffmpeg process, of the Drive upload) is a field
  of `Env`; the disk is the field `files` of `World`.
* What the program does to its collaborators (replies on the interaction,
  the command handed to `exec`, the upload call, unlinking a file) is
  appended to `World.log`, oldest first.
* `interaction` is a chat-input command interaction, the receiver of
  `reply`, `followUp`, `deferReply` and `editReply`; these calls are taken to
  succeed.  `console` output is not modelled.
* `stopRecording` suspends three times (the one-second wait, the ffmpeg
  process, the upload).  Its synchronous stretches are the functions
  `stopBegin`, `stopCollect`, `stopMixed` and `stopUploaded`, so that a
  trigger arriving during a suspension can be stated; `stopRecording` itself
  is one run with no other trigger in between.
-/

namespace Recman

/-- Numeric value of a Discord snowflake id. -/
abbrev Snowflake := Nat

/-! ## JavaScript objects as dictionaries -/

/-- Own properties of a JavaScript object keyed by snowflakes, in creation
order; keys are distinct. -/
structure JsObj (V : Type) where
  entries : List (Snowflake × V)
  nodup : (entries.map Prod.fst).Nodup

namespace JsObj

variable {V : Type}

/-- The object literal `{}`. -/
def empty : JsObj V := ⟨[], List.nodup_nil⟩

/-- Property read `o[k]`; `none` stands for `undefined`. -/
def get? (o : JsObj V) (k : Snowflake) : Option V := o.entries.lookup k

/-- Property write `o[k] = v`: an existing property keeps its place, a new
one is created last. -/
def set (o : JsObj V) (k : Snowflake) (v : V) : JsObj V :=
  if h : k ∈ o.entries.map Prod.fst then
    ⟨o.entries.map (fun p => if p.1 = k then (k, v) else p), by
      have e : (o.entries.map (fun p => if p.1 = k then (k, v) else p)).map Prod.fst
          = o.entries.map Prod.fst := by
        rw [List.map_map]
        apply List.map_congr_left
        intro p _
        by_cases hp : p.1 = k
        · simp [hp]
        · simp [hp]
      exact e.symm ▸ o.nodup⟩
  else
    ⟨o.entries ++ [(k, v)], by
      rw [List.map_append, List.nodup_append]
      refine ⟨o.nodup, by simp, ?_⟩
      intro a ha hb
      simp at hb
      exact h (hb ▸ ha)⟩

/-- Property removal `delete o[k]`. -/
def delete (o : JsObj V) (k : Snowflake) : JsObj V :=
  ⟨o.entries.filter (fun p => decide (p.1 ≠ k)),
    (List.Sublist.map Prod.fst (List.filter_sublist o.entries)).nodup o.nodup⟩

/-- A key is an array index when it is the canonical decimal string of an
integer below `2^32 - 1`. -/
def isArrayIndex (k : Snowflake) : Bool := decide (k < 4294967295)

/-- Enumeration `Object.keys(o)`: array indices in ascending numeric order,
then the other keys in creation order. -/
def keys (o : JsObj V) : List Snowflake :=
  ((o.entries.map Prod.fst).filter isArrayIndex).insertionSort (fun a b => a ≤ b)
    ++ (o.entries.map Prod.fst).filter (fun k => !isArrayIndex k)

/-- Every property value replaced by its image under `f`, keys and their order kept. -/
def mapValues (f : V → V) (o : JsObj V) : JsObj V :=
  ⟨o.entries.map (fun p => (p.1, f p.2)), by
    have h : (o.entries.map (fun p => (p.1, f p.2))).map Prod.fst = o.entries.map Prod.fst := by
      simp [List.map_map, Function.comp_def]
    exact h.symm ▸ o.nodup⟩

instance [DecidableEq V] : DecidableEq (JsObj V) := fun a b =>
  decidable_of_iff (a.entries = b.entries)
    ⟨fun h => by cases a; cases b; cases h; rfl, fun h => h ▸ rfl⟩

end JsObj

/-! ## Data model -/

/-- The receive stream `receiver.subscribe(member.id, ...)`. -/
structure OpusStream where
  userId : Snowflake
  destroyed : Bool
  deriving DecidableEq, Repr

/-- The instance `new prism.opus.Decoder(...)`. -/
structure Decoder where
  frameSize : Nat
  channels : Nat
  rate : Nat
  destroyed : Bool
  deriving DecidableEq, Repr

/-- The stream `fs.createWriteStream(outputFilePath)`. -/
structure WriteStream where
  path : String
  ended : Bool
  deriving DecidableEq, Repr

/-- One value of a session object: `{ outputStream, opusStream, decoder }`. -/
structure Capture where
  outputStream : WriteStream
  opusStream : OpusStream
  decoder : Decoder
  deriving DecidableEq, Repr

/-- A session: the object `recordings[channelId]`, member id to capture. -/
abbrev Session := JsObj Capture

/-- A guild member present in a voice channel. -/
structure Member where
  id : Snowflake
  bot : Bool
  username : String
  deriving DecidableEq, Repr

/-- The fields of a voice channel that the source reads. -/
structure VoiceChannel where
  id : Snowflake
  guildId : Snowflake
  guildName : String
  name : String
  members : List Member
  deriving DecidableEq, Repr

/-- Flags of the interaction at the time of the call. -/
structure Interaction where
  replied : Bool
  deferred : Bool
  deriving DecidableEq, Repr

/-- Local-time fields of a `Date`; `month` is `getMonth()`, counted from 0. -/
structure JsDate where
  fullYear : Nat
  month : Nat
  date : Nat
  hours : Nat
  minutes : Nat
  seconds : Nat
  deriving DecidableEq, Repr

/-- Calls made on collaborators. -/
inductive Effect where
  | reply (content : String) (ephemeral : Bool)
  | followUp (content : String) (ephemeral : Bool)
  | deferReply
  | editReply (content : String)
  | exec (command : String)
  | upload (filename : String)
  | unlink (path : String)
  deriving DecidableEq, Repr

/-- What the outside world decides during one run. -/
structure Env where
  /-- the constant `recordingsDir` -/
  recordingsDir : String
  /-- the constant `ffmpegPath` -/
  ffmpegPath : String
  /-- the value of `new Date()` inside `formatFilename` -/
  now : JsDate
  /-- whether the callback of `exec` receives an error -/
  ffmpegError : Bool
  /-- size of the output file the ffmpeg process left on disk, if it wrote one -/
  artifact : Option Nat
  /-- whether `token.json` can be read and parsed -/
  tokenReadable : Bool
  /-- outcome of `drive.files.create`: the `webViewLink`, or the message of the error -/
  driveCreate : Except String String

/-- Program state together with the disk and the record of collaborator calls. -/
structure World where
  /-- the module variable `recordings` -/
  recordings : JsObj Session
  /-- guilds that have a live voice connection -/
  connections : List Snowflake
  /-- the disk: size of the file at a path, `none` when there is no file -/
  files : String → Option Nat
  /-- collaborator calls made so far, oldest first -/
  log : List Effect

/-! ## File names -/

/-- Method `String.prototype.padStart(n, c)` for a one-character filler `c`. -/
def padStart (s : String) (n : Nat) (c : Char) : String :=
  String.mk (List.replicate (n - s.length) c) ++ s

/-- Function `formatFilename` (lines 49-60); `now` is the value of `new Date()`. -/
def formatFilename (now : JsDate) (guild channel : String) (users : List String) : String :=
  let formattedDate := "-".intercalate [
    toString now.fullYear,
    padStart (toString (now.month + 1)) 2 '0',
    padStart (toString now.date) 2 '0',
    padStart (toString now.hours) 2 '0',
    padStart (toString now.minutes) 2 '0',
    padStart (toString now.seconds) 2 '0']
  guild ++ " " ++ channel ++ " " ++ ", ".intercalate users ++ " " ++ formattedDate ++ ".aac"

/-- Call `path.join(dir, name)` for a normalised `dir` and a `name` that is a
single path segment. -/
def pathJoin (dir name : String) : String := dir ++ "/" ++ name

/-- Path of a member's raw buffer: `path.join(recordingsDir, id + ".pcm")`
(lines 98 and 141). -/
def pcmPath (env : Env) (id : Snowflake) : String :=
  pathJoin env.recordingsDir (toString id ++ ".pcm")

/-! ## Disk and connections -/

/-- The disk after the file at `p` has been given size `n`. -/
def writeFile (files : String → Option Nat) (p : String) (n : Nat) : String → Option Nat :=
  fun q => if q = p then some n else files q

/-- The disk after the file at `p` has been removed. -/
def removeFile (files : String → Option Nat) (p : String) : String → Option Nat :=
  fun q => if q = p then none else files q

/-- Statement `if (fs.existsSync(f)) fs.unlinkSync(f)`. -/
def unlinkIfExists (w : World) (p : String) : World :=
  if (w.files p).isSome then
    { w with files := removeFile w.files p, log := w.log ++ [Effect.unlink p] }
  else w

/-- Statement `if (connection) connection.destroy()`, where `connection` was
read for guild `g` when the stop began. -/
def destroyConnection (w : World) (connection : Bool) (g : Snowflake) : World :=
  if connection then { w with connections := w.connections.filter (fun x => decide (x ≠ g)) }
  else w

/-! ## startRecording -/

def needVoiceChannelMsg : String := "You need to be in a voice channel to start recording!"

def startedMsg : String := "🔴 Recording started!"

/-- The capture that lines 88-105 build for `member`. -/
def newCapture (env : Env) (m : Member) : Capture :=
  { outputStream := { path := pcmPath env m.id, ended := false }
    opusStream := { userId := m.id, destroyed := false }
    decoder := { frameSize := 960, channels := 2, rate := 48000, destroyed := false } }

/-- Body of the `forEach` callback (lines 85-106) on the session object. -/
def addCapture (env : Env) (s : Session) (m : Member) : Session :=
  if m.bot then s else s.set m.id (newCapture env m)

/-- Effect of the same callback on the disk: `createWriteStream` creates the
file or truncates it. -/
def openBuffer (env : Env) (files : String → Option Nat) (m : Member) : String → Option Nat :=
  if m.bot then files else writeFile files (pcmPath env m.id) 0

/-- Call `joinVoiceChannel` for guild `g`. -/
def joinVoiceChannel (connections : List Snowflake) (g : Snowflake) : List Snowflake :=
  if g ∈ connections then connections else connections ++ [g]

/-- Function `startRecording` (lines 62-113).  The session object stored at
line 83 is the one the `forEach` fills, so the registry holds the filled
session when the function replies.  Lines 75-80 (undeafening the bot, errors
caught) touch nothing of the state kept here. -/
def startRecording (env : Env) (w : World) (i : Interaction) : Option VoiceChannel → World
  | none => { w with log := w.log ++ [Effect.reply needVoiceChannelMsg false] }
  | some vc =>
    { recordings := w.recordings.set vc.id (vc.members.foldl (addCapture env) JsObj.empty)
      connections := joinVoiceChannel w.connections vc.guildId
      files := vc.members.foldl (openBuffer env) w.files
      log := w.log ++
        [if i.replied || i.deferred then Effect.followUp startedMsg false
         else Effect.reply startedMsg false] }

/-! ## uploadToGoogleDrive -/

def tokenMissingMsg : String := "Google OAuth token missing! Run authorize.js to fetch token."

/-- Function `uploadToGoogleDrive` (lines 223-253): the link, or the message
of the error it throws; `credentials.json` is taken to be in place. -/
def uploadToGoogleDrive (env : Env) (_filename : String) : Except String String :=
  if env.tokenReadable then env.driveCreate else Except.error tokenMissingMsg

/-! ## stopRecording -/

def noActiveMsg : String := "❌ No active recording in this channel."

def nothingRecordedMsg : String :=
  "No audio was recorded. Make sure someone is speaking and not muted!"

def mixErrorMsg : String := "Error mixing the audio."

/-- Body of the `forEach` of lines 129-133 on one capture. -/
def closeCapture (c : Capture) : Capture :=
  { outputStream := { c.outputStream with ended := true }
    opusStream := { c.opusStream with destroyed := true }
    decoder := { c.decoder with destroyed := true } }

/-- Lines 116-133, up to the one-second wait.  The result is `none` when the
function has returned (no session for the channel), and otherwise the value
of `connection` (whether there is one) with which the run goes on. -/
def stopBegin (w : World) (i : Interaction) (vc : VoiceChannel) : World × Option Bool :=
  let connection := decide (vc.guildId ∈ w.connections)
  match w.recordings.get? vc.id with
  | none =>
    let w1 : World := { w with log := w.log ++
      [if !i.replied && !i.deferred then Effect.reply noActiveMsg true
       else Effect.followUp noActiveMsg true] }
    (destroyConnection w1 connection vc.guildId, none)
  | some session =>
    let w1 : World := if !i.deferred then { w with log := w.log ++ [Effect.deferReply] } else w
    ({ w1 with recordings := w1.recordings.set vc.id (session.mapValues closeCapture) },
      some connection)

/-- Line 138: the name shown for a participant id. -/
def usernameOf (vc : VoiceChannel) (id : Snowflake) : String :=
  match vc.members.find? (fun m => decide (m.id = id)) with
  | some m => if m.username = "" then toString id else m.username
  | none => toString id

/-- Lines 140-149: the buffers that exist with a size above zero. -/
def inputFilesOf (env : Env) (files : String → Option Nat) (userIds : List Snowflake) :
    List String :=
  (userIds.map (pcmPath env)).filter (fun f =>
    match files f with
    | some size => decide (size > 0)
    | none => false)

/-- Lines 163-167: the argument string of the ffmpeg process. -/
def ffmpegCmd (inputFiles : List String) (outFilename : String) : String :=
  inputFiles.foldl (fun cmd f => cmd ++ ("-f s16le -ar 48000 -ac 2 -i \"" ++ f ++ "\" ")) ""
    ++ ("-filter_complex \"amix=inputs=" ++ toString inputFiles.length
        ++ ":duration=first:dropout_transition=2\" -ac 2 -c:a aac -b:a 128k -f adts \""
        ++ outFilename ++ "\"")

/-- What a stop carries from the mix request to the callbacks. -/
structure MixJob where
  connection : Bool
  inputFiles : List String
  outFilename : String
  deriving DecidableEq, Repr

/-- Lines 137-169, from the end of the wait to the call of `exec`.  The
result is `none` when the function has returned (nothing recorded).  Were the
session gone by then, `Object.keys` would throw and the run would end at
line 137 with nothing done: the first branch. -/
def stopCollect (env : Env) (w : World) (vc : VoiceChannel) (connection : Bool) :
    World × Option MixJob :=
  match w.recordings.get? vc.id with
  | none => (w, none)
  | some session =>
    let userIds := session.keys
    let usernameList := userIds.map (usernameOf vc)
    let inputFiles := inputFilesOf env w.files userIds
    if inputFiles.length = 0 then
      let w1 : World := { w with log := w.log ++ [Effect.editReply nothingRecordedMsg] }
      let w2 := destroyConnection w1 connection vc.guildId
      ({ w2 with recordings := w2.recordings.delete vc.id }, none)
    else
      let outFilename :=
        pathJoin env.recordingsDir (formatFilename env.now vc.guildName vc.name usernameList)
      let command := "\"" ++ env.ffmpegPath ++ "\" " ++ ffmpegCmd inputFiles outFilename
      ({ w with log := w.log ++ [Effect.exec command] },
        some { connection := connection, inputFiles := inputFiles, outFilename := outFilename })

/-- The ffmpeg process: it leaves the output file of the size the environment says, if any. -/
def runFfmpeg (env : Env) (w : World) (job : MixJob) : World :=
  match env.artifact with
  | some size => { w with files := writeFile w.files job.outFilename size }
  | none => w

/-- Lines 169-180, the callback of `exec` up to the call of
`uploadToGoogleDrive`.  The result is `false` when the callback has returned
(mixing failed). -/
def stopMixed (env : Env) (w : World) (vc : VoiceChannel) (job : MixJob) : World × Bool :=
  let w1 := job.inputFiles.foldl unlinkIfExists w
  if env.ffmpegError then
    let w2 : World := { w1 with log := w1.log ++ [Effect.editReply mixErrorMsg] }
    let w3 := destroyConnection w2 job.connection vc.guildId
    ({ w3 with recordings := w3.recordings.delete vc.id }, false)
  else
    ({ w1 with log := w1.log ++ [Effect.upload job.outFilename] }, true)

/-- Lines 180-191, once `uploadToGoogleDrive` has settled with `result`. -/
def stopUploaded (w : World) (vc : VoiceChannel) (job : MixJob)
    (result : Except String String) : World :=
  match result with
  | Except.ok fileUrl =>
    let w1 : World := { w with log := w.log ++
      [Effect.editReply ("Recording finished and uploaded: " ++ fileUrl)] }
    let w2 := unlinkIfExists w1 job.outFilename
    let w3 := destroyConnection w2 job.connection vc.guildId
    { w3 with recordings := w3.recordings.delete vc.id }
  | Except.error message =>
    let w1 : World := { w with log := w.log ++
      [Effect.editReply ("Failed to upload to Drive: " ++ message)] }
    let w2 := destroyConnection w1 job.connection vc.guildId
    { w2 with recordings := w2.recordings.delete vc.id }

/-- Function `stopRecording` (lines 115-193) run without any other trigger in
between: the synchronous parts in order, the wait, the ffmpeg process and the
upload settled by the environment. -/
def stopRecording (env : Env) (w : World) (i : Interaction) (vc : VoiceChannel) : World :=
  match stopBegin w i vc with
  | (w1, none) => w1
  | (w1, some connection) =>
    match stopCollect env w1 vc connection with
    | (w2, none) => w2
    | (w2, some job) =>
      match stopMixed env (runFfmpeg env w2 job) vc job with
      | (w3, false) => w3
      | (w3, true) => stopUploaded w3 vc job (uploadToGoogleDrive env job.outFilename)

/-- The mix job that `stopCollect` builds for session `s` when some buffer has audio. -/
def mixJobOf (env : Env) (files : String → Option Nat) (vc : VoiceChannel) (connection : Bool)
    (s : Session) : MixJob :=
  { connection := connection
    inputFiles := inputFilesOf env files s.keys
    outFilename := pathJoin env.recordingsDir
      (formatFilename env.now vc.guildName vc.name (s.keys.map (usernameOf vc))) }

/-- The command that `stopCollect` hands to `exec` for a mix job. -/
def execCommandOf (env : Env) (job : MixJob) : String :=
  "\"" ++ env.ffmpegPath ++ "\" " ++ ffmpegCmd job.inputFiles job.outFilename

/-- The rest of a stop once `exec` has been called in world `w`: the ffmpeg
process, the callback of `exec` and, when mixing succeeded, the upload and
what follows it. -/
def stopCallback (env : Env) (w : World) (vc : VoiceChannel) (job : MixJob) : World :=
  match stopMixed env (runFfmpeg env w job) vc job with
  | (w3, false) => w3
  | (w3, true) => stopUploaded w3 vc job (uploadToGoogleDrive env job.outFilename)

/-! ## The stamp of a file name, as the specification words it -/

/-- Two decimal digits of `n`, tens first. -/
def twoDigits (n : Nat) : String :=
  String.mk [Nat.digitChar (n / 10 % 10), Nat.digitChar (n % 10)]

/-- Four decimal digits of `n`, thousands first. -/
def fourDigits (n : Nat) : String :=
  String.mk [Nat.digitChar (n / 1000 % 10), Nat.digitChar (n / 100 % 10),
    Nat.digitChar (n / 10 % 10), Nat.digitChar (n % 10)]

/-- The stamp `YYYY-MM-DD-HH-mm-ss`: year, month counted from 1, day, hours,
minutes, seconds. -/
def stamp (d : JsDate) : String :=
  fourDigits d.fullYear ++ "-" ++ twoDigits (d.month + 1) ++ "-" ++ twoDigits d.date ++ "-"
    ++ twoDigits d.hours ++ "-" ++ twoDigits d.minutes ++ "-" ++ twoDigits d.seconds

/-- Ranges of the getters of a `Date`. -/
def JsDate.inRange (d : JsDate) : Prop :=
  d.month ≤ 11 ∧ 1 ≤ d.date ∧ d.date ≤ 31 ∧ d.hours ≤ 23 ∧ d.minutes ≤ 59 ∧ d.seconds ≤ 59

/-- Value of a list of decimal digit characters read from the left, continuing from `acc`. -/
def digitsValue (acc : Nat) (l : List Char) : Nat :=
  l.foldl (fun a c => 10 * a + (c.toNat - 48)) acc

/-! ## The amix filter of ffmpeg

The ffmpeg process is not part of the repository.  Its documentation gives
the option `duration` of the filter `amix` three values: `longest` (the
default), `shortest` and `first`, the end of the output being that of the
longest input, of the shortest input, or of the first input. -/

/-- Values of the option `duration` of `amix`. -/
inductive AmixDuration where
  | longest
  | shortest
  | first
  deriving DecidableEq, Repr

/-- The way a value of `duration` is written in a filter description. -/
def AmixDuration.name : AmixDuration → String
  | AmixDuration.longest => "longest"
  | AmixDuration.shortest => "shortest"
  | AmixDuration.first => "first"

/-- The filter description `amix=inputs=N:duration=D:dropout_transition=T`. -/
def amixFilter (inputs : Nat) (duration : AmixDuration) (dropoutTransition : Nat) : String :=
  "amix=inputs=" ++ toString inputs ++ ":duration=" ++ duration.name
    ++ ":dropout_transition=" ++ toString dropoutTransition

/-- Length of the output of `amix` for inputs of the given lengths, as the
documentation of ffmpeg describes `duration`. -/
def amixOutputLength : AmixDuration → List Nat → Nat
  | AmixDuration.longest, lengths => lengths.foldl max 0
  | AmixDuration.shortest, lengths => lengths.foldl min (lengths.headD 0)
  | AmixDuration.first, lengths => lengths.headD 0

/-! ## Sample data -/

/-- An environment in which ffmpeg succeeds and writes 4096 bytes, and
`token.json` is missing. -/
def sampleEnv : Env where
  recordingsDir := "/bot/Recordings"
  ffmpegPath := "/bin/ffmpeg"
  now := { fullYear := 2024, month := 2, date := 9, hours := 7, minutes := 5, seconds := 3 }
  ffmpegError := false
  artifact := some 4096
  tokenReadable := false
  driveCreate := Except.ok "https://drive.google.com/file/d/1/view"

def sampleInteraction : Interaction := { replied := false, deferred := false }

def alice : Member := { id := 80351110224678912, bot := false, username := "alice" }

def bob : Member := { id := 80351110224678913, bot := false, username := "bob" }

def jukebox : Member := { id := 80351110224678914, bot := true, username := "jukebox" }

/-- A voice channel with two people and a bot in it. -/
def sampleChannel : VoiceChannel :=
  { id := 41771983423143937, guildId := 41771983423143000, guildName := "Guild",
    name := "General", members := [alice, jukebox, bob] }

/-- The same channel at a moment when only alice is in it. -/
def channelWithAlice : VoiceChannel := { sampleChannel with members := [alice] }

/-- The same channel at a moment when only bob is in it. -/
def channelWithBob : VoiceChannel := { sampleChannel with members := [bob] }

/-- No session, no connection, an empty disk. -/
def emptyWorld : World :=
  { recordings := JsObj.empty, connections := [], files := fun _ => none, log := [] }

/-- A recording of `sampleChannel` has been started and nobody has spoken:
both buffers are empty files. -/
def silentWorld : World :=
  { startRecording sampleEnv emptyWorld sampleInteraction (some sampleChannel) with log := [] }

/-- A recording of `sampleChannel` has been started and alice has spoken:
her buffer holds 100 bytes, that of bob is empty. -/
def activeWorld : World :=
  { silentWorld with files := writeFile silentWorld.files (pcmPath sampleEnv alice.id) 100 }

/-- The world after a first `startRecording` on the channel, alice being there. -/
def startedOnce : World :=
  startRecording sampleEnv emptyWorld sampleInteraction (some channelWithAlice)

/-- The world after a second `startRecording` on the same channel with no
stop in between; alice has left and bob has come. -/
def startedTwice : World :=
  startRecording sampleEnv startedOnce sampleInteraction (some channelWithBob)

/-- The world in which a first stop of `activeWorld` sits in its one-second wait. -/
def drainingWorld : World := (stopBegin activeWorld sampleInteraction sampleChannel).1

/-- A second stop trigger has arrived during that wait and sits in its own
wait; then the wait of the first stop has ended and the first stop has run up
to its call of `exec`. -/
def firstPassWorld : World :=
  (stopCollect sampleEnv (stopBegin drainingWorld sampleInteraction sampleChannel).1
    sampleChannel true).1

/-- Then the wait of the second stop has ended, within the same second of
the clock, and the second stop has run up to its call of `exec`. -/
def secondPassWorld : World := (stopCollect sampleEnv firstPassWorld sampleChannel true).1

/-- The sample environment, with an ffmpeg process that fails and writes nothing. -/
def mixFailureEnv : Env := { sampleEnv with ffmpegError := true, artifact := none }

/-- The sample environment, with `token.json` in place: the upload returns a link. -/
def uploadingEnv : Env := { sampleEnv with tokenReadable := true }

/-- The mixed file of the sample run. -/
def sampleArtifact : String := "/bot/Recordings/Guild General alice, bob 2024-03-09-07-05-03.aac"

/-- The command the sample run hands to `exec`. -/
def sampleCommand : String :=
  "\"/bin/ffmpeg\" -f s16le -ar 48000 -ac 2 -i \"/bot/Recordings/80351110224678912.pcm\" "
    ++ "-filter_complex \"amix=inputs=1:duration=first:dropout_transition=2\" "
    ++ "-ac 2 -c:a aac -b:a 128k -f adts \"" ++ sampleArtifact ++ "\""

/-! # Properties

## Dictionaries -/

namespace JsObj
variable {V : Type}

theorem lookup_cons_self (l : List (Snowflake × V)) (k : Snowflake) (v : V) :
    ((k, v) :: l).lookup k = some v := by
  rw [List.lookup_cons]; simp

theorem lookup_cons_other (l : List (Snowflake × V)) (a j : Snowflake) (b : V) (h : j ≠ a) :
    ((a, b) :: l).lookup j = l.lookup j := by
  have hb : (j == a) = false := by simpa using h
  rw [List.lookup_cons, hb]

theorem lookup_replace_self (l : List (Snowflake × V)) (k : Snowflake) (v : V)
    (h : k ∈ l.map Prod.fst) :
    (l.map (fun p => if p.1 = k then (k, v) else p)).lookup k = some v := by
  induction l with
  | nil => simp at h
  | cons p l ih =>
    obtain ⟨a, b⟩ := p
    rw [List.map_cons]
    by_cases hak : a = k
    · rw [if_pos hak]
      exact lookup_cons_self _ _ _
    · rw [if_neg hak, lookup_cons_other _ _ _ _ (fun e => hak e.symm)]
      apply ih
      simp only [List.map_cons, List.mem_cons] at h
      rcases h with h | h
      · exact absurd h.symm hak
      · exact h

theorem lookup_replace_other (l : List (Snowflake × V)) (k j : Snowflake) (v : V)
    (h : j ≠ k) :
    (l.map (fun p => if p.1 = k then (k, v) else p)).lookup j = l.lookup j := by
  induction l with
  | nil => rfl
  | cons p l ih =>
    obtain ⟨a, b⟩ := p
    rw [List.map_cons]
    by_cases hak : a = k
    · rw [if_pos hak, lookup_cons_other _ _ _ _ h, ih,
        lookup_cons_other _ _ _ _ (hak ▸ h)]
    · rw [if_neg hak]
      by_cases hja : j = a
      · subst hja
        rw [lookup_cons_self, lookup_cons_self]
      · rw [lookup_cons_other _ _ _ _ hja, lookup_cons_other _ _ _ _ hja, ih]

theorem lookup_append_new_self (l : List (Snowflake × V)) (k : Snowflake) (v : V)
    (h : k ∉ l.map Prod.fst) : (l ++ [(k, v)]).lookup k = some v := by
  induction l with
  | nil => exact lookup_cons_self _ _ _
  | cons p l ih =>
    obtain ⟨a, b⟩ := p
    simp only [List.map_cons, List.mem_cons, not_or] at h
    rw [List.cons_append, lookup_cons_other _ _ _ _ h.1]
    exact ih h.2

theorem lookup_append_new_other (l : List (Snowflake × V)) (k j : Snowflake) (v : V)
    (h : j ≠ k) : (l ++ [(k, v)]).lookup j = l.lookup j := by
  induction l with
  | nil => exact lookup_cons_other _ _ _ _ h
  | cons p l ih =>
    obtain ⟨a, b⟩ := p
    rw [List.cons_append]
    by_cases hja : j = a
    · subst hja
      rw [lookup_cons_self, lookup_cons_self]
    · rw [lookup_cons_other _ _ _ _ hja, lookup_cons_other _ _ _ _ hja, ih]

theorem lookup_eq_none_iff (l : List (Snowflake × V)) (k : Snowflake) :
    l.lookup k = none ↔ k ∉ l.map Prod.fst := by
  induction l with
  | nil => simp
  | cons p l ih =>
    obtain ⟨a, b⟩ := p
    by_cases hka : k = a
    · subst hka
      rw [lookup_cons_self]
      simp
    · rw [lookup_cons_other _ _ _ _ hka, ih]
      simp [hka]

theorem lookup_filter_ne_self (l : List (Snowflake × V)) (k : Snowflake) :
    (l.filter (fun p => decide (p.1 ≠ k))).lookup k = none := by
  rw [lookup_eq_none_iff]
  simp [List.mem_filter]

theorem lookup_filter_ne_other (l : List (Snowflake × V)) (k j : Snowflake) (h : j ≠ k) :
    (l.filter (fun p => decide (p.1 ≠ k))).lookup j = l.lookup j := by
  induction l with
  | nil => rfl
  | cons p l ih =>
    obtain ⟨a, b⟩ := p
    by_cases hak : a = k
    · rw [List.filter_cons_of_neg (by simpa using hak), ih, lookup_cons_other _ _ _ _ (hak ▸ h)]
    · rw [List.filter_cons_of_pos (by simpa using hak)]
      by_cases hja : j = a
      · subst hja
        rw [lookup_cons_self, lookup_cons_self]
      · rw [lookup_cons_other _ _ _ _ hja, lookup_cons_other _ _ _ _ hja, ih]

theorem get?_set_self (o : JsObj V) (k : Snowflake) (v : V) : (o.set k v).get? k = some v := by
  unfold set get?
  split
  · exact lookup_replace_self _ _ _ ‹_›
  · exact lookup_append_new_self _ _ _ ‹_›

theorem get?_set_other (o : JsObj V) (k j : Snowflake) (v : V) (h : j ≠ k) :
    (o.set k v).get? j = o.get? j := by
  unfold set get?
  split
  · exact lookup_replace_other _ _ _ _ h
  · exact lookup_append_new_other _ _ _ _ h

theorem get?_delete_self (o : JsObj V) (k : Snowflake) : (o.delete k).get? k = none :=
  lookup_filter_ne_self _ _

theorem get?_delete_other (o : JsObj V) (k j : Snowflake) (h : j ≠ k) :
    (o.delete k).get? j = o.get? j :=
  lookup_filter_ne_other _ _ _ h

theorem get?_eq_none_iff (o : JsObj V) (k : Snowflake) :
    o.get? k = none ↔ k ∉ o.entries.map Prod.fst :=
  lookup_eq_none_iff _ _

theorem mem_keys (o : JsObj V) (k : Snowflake) : k ∈ o.keys ↔ k ∈ o.entries.map Prod.fst := by
  unfold keys
  rw [List.mem_append, List.mem_insertionSort, List.mem_filter, List.mem_filter]
  by_cases h : isArrayIndex k = true
  · simp [h]
  · simp [h]

theorem nodup_keys (o : JsObj V) : o.keys.Nodup := by
  unfold keys
  rw [List.nodup_append]
  refine ⟨?_, o.nodup.filter _, ?_⟩
  · exact (List.perm_insertionSort _ _).nodup_iff.mpr (o.nodup.filter _)
  · intro a ha hb
    rw [List.mem_insertionSort, List.mem_filter] at ha
    rw [List.mem_filter] at hb
    simp [ha.2] at hb

theorem keys_mapValues (f : V → V) (o : JsObj V) : (o.mapValues f).keys = o.keys := by
  unfold keys mapValues
  simp [List.map_map, Function.comp_def]

theorem map_fst_replace (l : List (Snowflake × V)) (k : Snowflake) (v : V) :
    (l.map (fun p => if p.1 = k then (k, v) else p)).map Prod.fst = l.map Prod.fst := by
  rw [List.map_map]
  apply List.map_congr_left
  intro p _
  by_cases hp : p.1 = k
  · simp [hp]
  · simp [hp]

theorem mem_entries_set (o : JsObj V) (k j : Snowflake) (v : V) :
    j ∈ (o.set k v).entries.map Prod.fst ↔ j = k ∨ j ∈ o.entries.map Prod.fst := by
  unfold set
  split
  · rename_i h
    simp only [map_fst_replace]
    constructor
    · exact Or.inr
    · rintro (rfl | h1)
      · exact h
      · exact h1
  · simp only [List.map_append, List.mem_append, List.map_cons, List.map_nil, List.mem_singleton]
    tauto

theorem ext_entries (a b : JsObj V) (h : a.entries = b.entries) : a = b := by
  cases a; cases b; cases h; rfl

theorem filter_ne_replace (l : List (Snowflake × V)) (k : Snowflake) (v : V) :
    (l.map (fun p => if p.1 = k then (k, v) else p)).filter (fun p => decide (p.1 ≠ k))
      = l.filter (fun p => decide (p.1 ≠ k)) := by
  induction l with
  | nil => rfl
  | cons p l ih =>
    rw [List.map_cons]
    by_cases hp : p.1 = k
    · rw [if_pos hp, List.filter_cons_of_neg (by simp), List.filter_cons_of_neg (by simpa using hp), ih]
    · rw [if_neg hp, List.filter_cons_of_pos (by simpa using hp),
        List.filter_cons_of_pos (by simpa using hp), ih]

theorem delete_set_self (o : JsObj V) (k : Snowflake) (v : V) :
    (o.set k v).delete k = o.delete k := by
  apply ext_entries
  unfold set delete
  split
  · exact filter_ne_replace _ _ _
  · rename_i h
    show List.filter _ (o.entries ++ [(k, v)]) = _
    rw [List.filter_append, List.filter_cons_of_neg (by simp)]
    simp

end JsObj

/-! ## The parts of stopRecording -/

@[simp] theorem destroyConnection_recordings (w : World) (c : Bool) (g : Snowflake) :
    (destroyConnection w c g).recordings = w.recordings := by
  unfold destroyConnection; split <;> rfl

@[simp] theorem destroyConnection_files (w : World) (c : Bool) (g : Snowflake) :
    (destroyConnection w c g).files = w.files := by
  unfold destroyConnection; split <;> rfl

@[simp] theorem destroyConnection_log (w : World) (c : Bool) (g : Snowflake) :
    (destroyConnection w c g).log = w.log := by
  unfold destroyConnection; split <;> rfl

@[simp] theorem unlinkIfExists_recordings (w : World) (p : String) :
    (unlinkIfExists w p).recordings = w.recordings := by
  unfold unlinkIfExists; split <;> rfl

@[simp] theorem foldl_unlink_recordings (l : List String) (w : World) :
    (l.foldl unlinkIfExists w).recordings = w.recordings := by
  induction l generalizing w with
  | nil => rfl
  | cons p l ih => rw [List.foldl_cons, ih, unlinkIfExists_recordings]

@[simp] theorem runFfmpeg_recordings (env : Env) (w : World) (job : MixJob) :
    (runFfmpeg env w job).recordings = w.recordings := by
  unfold runFfmpeg; split <;> rfl

theorem stopBegin_none (w : World) (i : Interaction) (vc : VoiceChannel)
    (h : w.recordings.get? vc.id = none) :
    stopBegin w i vc =
      (destroyConnection { w with log := w.log ++
          [if !i.replied && !i.deferred then Effect.reply noActiveMsg true
           else Effect.followUp noActiveMsg true] }
        (decide (vc.guildId ∈ w.connections)) vc.guildId, none) := by
  unfold stopBegin
  simp only [h]

theorem stopBegin_some (w : World) (i : Interaction) (vc : VoiceChannel) (s : Session)
    (h : w.recordings.get? vc.id = some s) :
    stopBegin w i vc =
      ({ (if !i.deferred then { w with log := w.log ++ [Effect.deferReply] } else w) with
          recordings := (if !i.deferred then { w with log := w.log ++ [Effect.deferReply] }
            else w).recordings.set vc.id (s.mapValues closeCapture) },
        some (decide (vc.guildId ∈ w.connections))) := by
  unfold stopBegin
  simp only [h]

/-- The world in which the wait of an accepted stop begins. -/
theorem stopBegin_some_recordings (w : World) (i : Interaction) (vc : VoiceChannel) (s : Session)
    (h : w.recordings.get? vc.id = some s) :
    (stopBegin w i vc).1.recordings = w.recordings.set vc.id (s.mapValues closeCapture)
    ∧ (stopBegin w i vc).1.files = w.files
    ∧ (stopBegin w i vc).1.log = w.log ++ (if i.deferred then [] else [Effect.deferReply])
    ∧ (stopBegin w i vc).2 = some (decide (vc.guildId ∈ w.connections)) := by
  rw [stopBegin_some w i vc s h]
  cases i.deferred <;> simp

theorem stopRecording_eq_of_no_session (env : Env) (w : World) (i : Interaction) (vc : VoiceChannel)
    (h : w.recordings.get? vc.id = none) :
    (stopRecording env w i vc).log = w.log ++
        [if !i.replied && !i.deferred then Effect.reply noActiveMsg true
         else Effect.followUp noActiveMsg true]
    ∧ (stopRecording env w i vc).files = w.files
    ∧ (stopRecording env w i vc).recordings = w.recordings := by
  unfold stopRecording
  rw [stopBegin_none w i vc h]
  simp

theorem stopCollect_nothing (env : Env) (w : World) (vc : VoiceChannel) (c : Bool) (s : Session)
    (h : w.recordings.get? vc.id = some s) (hin : inputFilesOf env w.files s.keys = []) :
    stopCollect env w vc c =
      ({ destroyConnection { w with log := w.log ++ [Effect.editReply nothingRecordedMsg] }
            c vc.guildId with
          recordings := w.recordings.delete vc.id }, none) := by
  unfold stopCollect
  simp [h, hin]

theorem stopCollect_job (env : Env) (w : World) (vc : VoiceChannel) (c : Bool) (s : Session)
    (h : w.recordings.get? vc.id = some s) (hin : inputFilesOf env w.files s.keys ≠ []) :
    stopCollect env w vc c =
      ({ w with log := w.log ++ [Effect.exec ("\"" ++ env.ffmpegPath ++ "\" " ++
            ffmpegCmd (inputFilesOf env w.files s.keys)
              (pathJoin env.recordingsDir
                (formatFilename env.now vc.guildName vc.name (s.keys.map (usernameOf vc)))))] },
        some { connection := c, inputFiles := inputFilesOf env w.files s.keys,
               outFilename := pathJoin env.recordingsDir
                (formatFilename env.now vc.guildName vc.name (s.keys.map (usernameOf vc))) }) := by
  unfold stopCollect
  simp [h, hin]

theorem stopMixed_recordings (env : Env) (w : World) (vc : VoiceChannel) (job : MixJob) :
    ((stopMixed env w vc job).2 = false ∧
        (stopMixed env w vc job).1.recordings = w.recordings.delete vc.id)
    ∨ ((stopMixed env w vc job).2 = true ∧
        (stopMixed env w vc job).1.recordings = w.recordings) := by
  unfold stopMixed
  cases env.ffmpegError <;> simp

theorem stopUploaded_recordings (w : World) (vc : VoiceChannel) (job : MixJob)
    (r : Except String String) :
    (stopUploaded w vc job r).recordings = w.recordings.delete vc.id := by
  unfold stopUploaded
  cases r <;> simp

theorem stopRecording_recordings (env : Env) (w : World) (i : Interaction) (vc : VoiceChannel)
    (s : Session) (h : w.recordings.get? vc.id = some s) :
    (stopRecording env w i vc).recordings = w.recordings.delete vc.id := by
  obtain ⟨h1, -, -, h4⟩ := stopBegin_some_recordings w i vc s h
  unfold stopRecording
  generalize stopBegin w i vc = r at h1 h4
  obtain ⟨w1, c⟩ := r
  simp only at h1 h4
  subst h4
  simp only
  have hget : w1.recordings.get? vc.id = some (s.mapValues closeCapture) := by
    rw [h1, JsObj.get?_set_self]
  have hdel : w1.recordings.delete vc.id = w.recordings.delete vc.id := by
    rw [h1, JsObj.delete_set_self]
  by_cases hin : inputFilesOf env w1.files (s.mapValues closeCapture).keys = []
  · rw [stopCollect_nothing env w1 vc _ _ hget hin]
    simp only [hdel]
  · rw [stopCollect_job env w1 vc _ _ hget hin]
    simp only
    rcases stopMixed_recordings env (runFfmpeg env
      { w1 with log := w1.log ++ [Effect.exec ("\"" ++ env.ffmpegPath ++ "\" " ++
            ffmpegCmd (inputFilesOf env w1.files (s.mapValues closeCapture).keys)
              (pathJoin env.recordingsDir
                (formatFilename env.now vc.guildName vc.name
                  ((s.mapValues closeCapture).keys.map (usernameOf vc)))))] }
      { connection := decide (vc.guildId ∈ w.connections),
        inputFiles := inputFilesOf env w1.files (s.mapValues closeCapture).keys,
        outFilename := pathJoin env.recordingsDir
                (formatFilename env.now vc.guildName vc.name
                  ((s.mapValues closeCapture).keys.map (usernameOf vc))) }) vc
      { connection := decide (vc.guildId ∈ w.connections),
        inputFiles := inputFilesOf env w1.files (s.mapValues closeCapture).keys,
        outFilename := pathJoin env.recordingsDir
                (formatFilename env.now vc.guildName vc.name
                  ((s.mapValues closeCapture).keys.map (usernameOf vc))) } with ⟨h5, h6⟩ | ⟨h5, h6⟩
    · generalize stopMixed env _ vc _ = r at h5 h6
      obtain ⟨w3, b⟩ := r
      simp only at h5 h6
      subst h5
      simp only [h6, runFfmpeg_recordings, hdel]
    · generalize stopMixed env _ vc _ = r at h5 h6
      obtain ⟨w3, b⟩ := r
      simp only at h5 h6
      subst h5
      simp only [stopUploaded_recordings, h6, runFfmpeg_recordings, hdel]

/-! ## Mixer inputs -/

theorem mem_inputFilesOf (env : Env) (files : String → Option Nat) (ids : List Snowflake)
    (f : String) :
    f ∈ inputFilesOf env files ids ↔
      (∃ id ∈ ids, pcmPath env id = f) ∧ ∃ size, files f = some size ∧ 0 < size := by
  unfold inputFilesOf
  rw [List.mem_filter, List.mem_map]
  constructor
  · rintro ⟨h1, h2⟩
    refine ⟨h1, ?_⟩
    split at h2
    · rename_i size hsz
      exact ⟨size, hsz, by simpa using h2⟩
    · simp at h2
  · rintro ⟨h1, size, hsz, hpos⟩
    refine ⟨h1, ?_⟩
    rw [hsz]
    simpa using hpos

theorem inputFilesOf_eq_nil (env : Env) (files : String → Option Nat) (ids : List Snowflake)
    (h : ∀ id ∈ ids, files (pcmPath env id) = none ∨ files (pcmPath env id) = some 0) :
    inputFilesOf env files ids = [] := by
  rw [List.eq_nil_iff_forall_not_mem]
  intro f hf
  rw [mem_inputFilesOf] at hf
  obtain ⟨⟨id, hid, rfl⟩, size, hsz, hpos⟩ := hf
  rcases h id hid with h0 | h0
  · rw [h0] at hsz; cases hsz
  · rw [h0] at hsz; cases hsz; exact absurd hpos (by decide)

theorem inputFilesOf_eq_map_filter (env : Env) (files : String → Option Nat)
    (ids : List Snowflake) :
    inputFilesOf env files ids =
      (ids.filter (fun id => match files (pcmPath env id) with
        | some size => decide (size > 0)
        | none => false)).map (pcmPath env) := by
  unfold inputFilesOf
  rw [List.filter_map]
  rfl

/-! ## Decimal rendering -/

theorem digitChar_toNat (d : Nat) (h : d < 10) : (Nat.digitChar d).toNat - 48 = d := by
  interval_cases d <;> rfl

theorem digitsValue_toDigitsCore (fuel n : Nat) (ds : List Char) (h : n < fuel) :
    digitsValue 0 (Nat.toDigitsCore 10 fuel n ds) = digitsValue n ds := by
  induction fuel generalizing n ds with
  | zero => exact absurd h (Nat.not_lt_zero _)
  | succ fuel ih =>
    rw [Nat.toDigitsCore]
    split
    · rename_i h0
      have hn : n < 10 := by omega
      show digitsValue (10 * 0 + ((Nat.digitChar (n % 10)).toNat - 48)) ds = _
      rw [digitChar_toNat _ (Nat.mod_lt _ (by decide)), Nat.mod_eq_of_lt hn]
      simp
    · rename_i h0
      rw [ih (n / 10) _ (by omega)]
      show digitsValue (10 * (n / 10) + ((Nat.digitChar (n % 10)).toNat - 48)) ds = _
      rw [digitChar_toNat _ (Nat.mod_lt _ (by decide))]
      congr 1
      omega

theorem toString_nat_injective (a b : Nat) (h : toString a = toString b) : a = b := by
  have h1 : Nat.toDigits 10 a = Nat.toDigits 10 b := by
    have := congrArg String.data h
    simpa [toString, Nat.repr] using this
  have ha := digitsValue_toDigitsCore (a + 1) a [] (Nat.lt_succ_self a)
  have hb := digitsValue_toDigitsCore (b + 1) b [] (Nat.lt_succ_self b)
  unfold Nat.toDigits at h1
  rw [h1, hb] at ha
  simpa [digitsValue] using ha.symm

theorem pcmPath_injective (env : Env) (a b : Snowflake) (h : pcmPath env a = pcmPath env b) :
    a = b := by
  unfold pcmPath pathJoin at h
  have h1 := congrArg String.data h
  simp only [String.data_append, List.append_cancel_left_eq, List.append_cancel_right_eq] at h1
  exact toString_nat_injective a b (String.ext h1)

theorem padStart_two (n : Nat) (h : n < 100) : padStart (toString n) 2 '0' = twoDigits n := by
  interval_cases n <;> rfl

theorem toDigits_four (n : Nat) (h1 : 1000 ≤ n) (h2 : n ≤ 9999) :
    Nat.toDigits 10 n = [Nat.digitChar (n / 1000 % 10), Nat.digitChar (n / 100 % 10),
      Nat.digitChar (n / 10 % 10), Nat.digitChar (n % 10)] := by
  obtain ⟨k, rfl⟩ : ∃ k, n = k + 1000 := ⟨n - 1000, by omega⟩
  unfold Nat.toDigits
  have e1 : (k + 1000) / 10 ≠ 0 := by omega
  have e2 : (k + 1000) / 10 / 10 ≠ 0 := by omega
  have e3 : (k + 1000) / 10 / 10 / 10 ≠ 0 := by omega
  have e4 : (k + 1000) / 10 / 10 / 10 / 10 = 0 := by omega
  rw [show k + 1000 + 1 = (k + 997) + 1 + 1 + 1 + 1 from by omega]
  generalize k + 997 = fuel
  rw [Nat.toDigitsCore]
  simp only [e1, if_false]
  rw [Nat.toDigitsCore]
  simp only [e2, if_false]
  rw [Nat.toDigitsCore]
  simp only [e3, if_false]
  rw [Nat.toDigitsCore]
  simp only [e4, if_true]
  have a1 : (k + 1000) / 10 / 10 / 10 % 10 = (k + 1000) / 1000 % 10 := by omega
  have a2 : (k + 1000) / 10 / 10 % 10 = (k + 1000) / 100 % 10 := by omega
  rw [a1, a2]

theorem toString_four (n : Nat) (h1 : 1000 ≤ n) (h2 : n ≤ 9999) :
    toString n = fourDigits n := by
  show (Nat.toDigits 10 n).asString = _
  rw [toDigits_four n h1 h2]
  rfl

theorem twoDigits_length (n : Nat) : (twoDigits n).length = 2 := rfl

theorem fourDigits_length (n : Nat) : (fourDigits n).length = 4 := rfl

theorem stamp_length (d : JsDate) : (stamp d).length = 19 := by
  unfold stamp
  simp only [String.length_append, twoDigits_length, fourDigits_length]
  rfl

/-! ## Sessions built by startRecording -/

theorem get?_foldl_addCapture (env : Env) (ms : List Member) (s : Session) (j : Snowflake) :
    (ms.foldl (addCapture env) s).get? j =
      if ∃ m ∈ ms, m.id = j ∧ m.bot = false then
        some { outputStream := { path := pcmPath env j, ended := false }
               opusStream := { userId := j, destroyed := false }
               decoder := { frameSize := 960, channels := 2, rate := 48000, destroyed := false } }
      else s.get? j := by
  induction ms generalizing s with
  | nil => simp
  | cons m ms ih =>
    rw [List.foldl_cons, ih]
    by_cases hrest : ∃ m ∈ ms, m.id = j ∧ m.bot = false
    · have hall : ∃ x ∈ m :: ms, x.id = j ∧ x.bot = false := by
        obtain ⟨x, hx, hx2⟩ := hrest
        exact ⟨x, List.mem_cons_of_mem _ hx, hx2⟩
      rw [if_pos hrest, if_pos hall]
    · rw [if_neg hrest]
      unfold addCapture
      by_cases hb : m.bot = true
      · have hall : ¬ ∃ x ∈ m :: ms, x.id = j ∧ x.bot = false := by
          rintro ⟨x, hx, hx2⟩
          rcases List.mem_cons.mp hx with rfl | hx
          · rw [hb] at hx2; exact absurd hx2.2 (by decide)
          · exact hrest ⟨x, hx, hx2⟩
        rw [if_pos hb, if_neg hall]
      · rw [if_neg hb]
        by_cases hj : m.id = j
        · have hall : ∃ x ∈ m :: ms, x.id = j ∧ x.bot = false :=
            ⟨m, List.mem_cons_self _ _, hj, by simpa using hb⟩
          rw [if_pos hall]
          subst hj
          rw [JsObj.get?_set_self]
          rfl
        · have hall : ¬ ∃ x ∈ m :: ms, x.id = j ∧ x.bot = false := by
            rintro ⟨x, hx, hx2⟩
            rcases List.mem_cons.mp hx with rfl | hx
            · exact hj hx2.1
            · exact hrest ⟨x, hx, hx2⟩
          rw [if_neg hall, JsObj.get?_set_other _ _ _ _ (fun e => hj e.symm)]

theorem get?_empty (V : Type) (j : Snowflake) : (JsObj.empty : JsObj V).get? j = none := rfl

theorem mem_keys_iff_get?_ne_none {V : Type} (o : JsObj V) (k : Snowflake) :
    k ∈ o.keys ↔ o.get? k ≠ none := by
  rw [JsObj.mem_keys, Ne, JsObj.get?_eq_none_iff, not_not]

theorem startRecording_session (env : Env) (w : World) (i : Interaction) (vc : VoiceChannel) :
    (startRecording env w i (some vc)).recordings.get? vc.id =
      some (vc.members.foldl (addCapture env) JsObj.empty) := by
  show (w.recordings.set vc.id _).get? vc.id = _
  rw [JsObj.get?_set_self]

theorem count_keys_of_get? {V : Type} (o : JsObj V) (k : Snowflake) (v : V)
    (h : o.get? k = some v) : o.keys.count k = 1 := by
  apply List.count_eq_one_of_mem (JsObj.nodup_keys o)
  rw [mem_keys_iff_get?_ne_none, h]
  simp

/-! ## The ffmpeg command -/

theorem foldl_append_join (g : String → String) (l : List String) (acc : String) :
    l.foldl (fun cmd f => cmd ++ g f) acc = acc ++ String.join (l.map g) := by
  induction l generalizing acc with
  | nil => simp [String.join]
  | cons f l ih =>
    rw [List.foldl_cons, ih, List.map_cons]
    have hj : String.join (g f :: l.map g) = g f ++ String.join (l.map g) := by
      unfold String.join
      rw [List.foldl_cons]
      have key : ∀ (xs : List String) (a b : String),
          xs.foldl (fun r s => r ++ s) (a ++ b) = a ++ xs.foldl (fun r s => r ++ s) b := by
        intro xs
        induction xs with
        | nil => intro a b; rfl
        | cons x xs ihx =>
          intro a b
          rw [List.foldl_cons, List.foldl_cons, String.append_assoc, ihx]
      have := key (l.map g) (g f) ""
      simpa using this
    rw [hj, String.append_assoc]

/-! ## A stop with audio -/

theorem unlinkIfExists_log_files (w : World) (p : String) (h : (w.files p).isSome = true) :
    unlinkIfExists w p =
      { w with files := removeFile w.files p, log := w.log ++ [Effect.unlink p] } := by
  unfold unlinkIfExists
  rw [if_pos h]

theorem foldl_unlink_all (l : List String) (w : World) (hnd : l.Nodup)
    (hex : ∀ f ∈ l, (w.files f).isSome = true) :
    (l.foldl unlinkIfExists w).log = w.log ++ l.map Effect.unlink
    ∧ (∀ q, (l.foldl unlinkIfExists w).files q = if q ∈ l then none else w.files q) := by
  induction l generalizing w with
  | nil => simp
  | cons p l ih =>
    rw [List.foldl_cons, unlinkIfExists_log_files w p (hex p (List.mem_cons_self _ _))]
    have hp : p ∉ l := (List.nodup_cons.mp hnd).1
    have hex2 : ∀ f ∈ l, (removeFile w.files p f).isSome = true := by
      intro f hf
      have hne : f ≠ p := fun e => hp (e ▸ hf)
      unfold removeFile
      rw [if_neg hne]
      exact hex f (List.mem_cons_of_mem _ hf)
    obtain ⟨h1, h2⟩ := ih { w with files := removeFile w.files p, log := w.log ++ [Effect.unlink p] }
      (List.nodup_cons.mp hnd).2 hex2
    refine ⟨?_, ?_⟩
    · rw [h1]; simp
    · intro q
      rw [h2 q]
      unfold removeFile
      by_cases hq : q = p
      · subst hq; simp [hp]
      · simp [hq]

theorem inputFilesOf_nodup (env : Env) (files : String → Option Nat) (s : Session) :
    (inputFilesOf env files s.keys).Nodup := by
  rw [inputFilesOf_eq_map_filter]
  exact ((JsObj.nodup_keys s).filter _).map (fun a b hab => pcmPath_injective env a b hab)

theorem getLast?_data_append (x y : String) (c : Char) (h : y.data.getLast? = some c) :
    (x ++ y).data.getLast? = some c := by
  rw [String.data_append, List.getLast?_append, h]
  rfl

theorem last_of_pcmPath (env : Env) (id : Snowflake) :
    (pcmPath env id).data.getLast? = some 'm' := by
  unfold pcmPath pathJoin
  exact getLast?_data_append _ _ _ (getLast?_data_append _ _ _ rfl)

theorem last_of_formatFilename (env : Env) (g c : String) (us : List String) :
    (pathJoin env.recordingsDir (formatFilename env.now g c us)).data.getLast? = some 'c' := by
  unfold pathJoin formatFilename
  exact getLast?_data_append _ _ _ (getLast?_data_append _ _ _ rfl)

theorem outFilename_not_input (env : Env) (files : String → Option Nat) (vc : VoiceChannel)
    (c : Bool) (s : Session) :
    (mixJobOf env files vc c s).outFilename ∉ (mixJobOf env files vc c s).inputFiles := by
  intro hmem
  have hmem2 : (mixJobOf env files vc c s).outFilename ∈ inputFilesOf env files s.keys := hmem
  rw [mem_inputFilesOf] at hmem2
  obtain ⟨⟨id, -, hp⟩, -⟩ := hmem2
  have h1 := last_of_pcmPath env id
  rw [hp] at h1
  have h2 : (mixJobOf env files vc c s).outFilename.data.getLast? = some 'c' :=
    last_of_formatFilename env _ _ _
  rw [h2] at h1
  exact absurd h1 (by decide)

/-- An accepted stop whose session has a buffer with audio: the run from the
call of `exec` on. -/
theorem stopRecording_with_inputs (env : Env) (w : World) (i : Interaction) (vc : VoiceChannel)
    (s : Session) (h : w.recordings.get? vc.id = some s)
    (hin : inputFilesOf env w.files s.keys ≠ []) :
    stopRecording env w i vc =
      stopCallback env
        { (stopBegin w i vc).1 with
          log := w.log ++ (if i.deferred then [] else [Effect.deferReply]) ++
            [Effect.exec (execCommandOf env
              (mixJobOf env w.files vc (decide (vc.guildId ∈ w.connections)) s))] }
        vc (mixJobOf env w.files vc (decide (vc.guildId ∈ w.connections)) s) := by
  obtain ⟨h1, h2, h3, h4⟩ := stopBegin_some_recordings w i vc s h
  unfold stopRecording stopCallback
  generalize stopBegin w i vc = r at h1 h2 h3 h4
  obtain ⟨w1, c⟩ := r
  simp only at h1 h2 h3 h4
  subst h4
  simp only
  have hget : w1.recordings.get? vc.id = some (s.mapValues closeCapture) := by
    rw [h1, JsObj.get?_set_self]
  have hin2 : inputFilesOf env w1.files (s.mapValues closeCapture).keys ≠ [] := by
    rw [h2, JsObj.keys_mapValues]; exact hin
  rw [stopCollect_job env w1 vc _ _ hget hin2]
  simp only [h2, h3, JsObj.keys_mapValues]
  rfl

theorem runFfmpeg_log (env : Env) (w : World) (job : MixJob) :
    (runFfmpeg env w job).log = w.log := by
  unfold runFfmpeg; split <;> rfl

theorem unlinkIfExists_files_self (w : World) (p : String) :
    (unlinkIfExists w p).files p = none := by
  unfold unlinkIfExists
  split
  · show removeFile w.files p p = none
    unfold removeFile
    rw [if_pos rfl]
  · rename_i hno
    cases hp : w.files p with
    | none => rfl
    | some n => rw [hp] at hno; exact absurd rfl hno

theorem unlinkIfExists_log_cases (w : World) (p : String) :
    (unlinkIfExists w p).log = w.log ∨ (unlinkIfExists w p).log = w.log ++ [Effect.unlink p] := by
  unfold unlinkIfExists
  split
  · right; rfl
  · left; rfl

/-- The callback of `exec` when mixing failed. -/
theorem stopCallback_mix_error (env : Env) (w : World) (vc : VoiceChannel) (job : MixJob)
    (hnd : job.inputFiles.Nodup)
    (hex : ∀ f ∈ job.inputFiles, ((runFfmpeg env w job).files f).isSome = true)
    (herr : env.ffmpegError = true) :
    (stopCallback env w vc job).log =
      w.log ++ job.inputFiles.map Effect.unlink ++ [Effect.editReply mixErrorMsg] := by
  unfold stopCallback stopMixed
  simp only [herr, if_true, destroyConnection_log]
  rw [(foldl_unlink_all job.inputFiles (runFfmpeg env w job) hnd hex).1, runFfmpeg_log]

/-- The callback of `exec` and what follows when mixing succeeded and the
upload returned a link. -/
theorem stopCallback_upload_ok (env : Env) (w : World) (vc : VoiceChannel) (job : MixJob)
    (url : String) (hnd : job.inputFiles.Nodup)
    (hex : ∀ f ∈ job.inputFiles, ((runFfmpeg env w job).files f).isSome = true)
    (herr : env.ffmpegError = false)
    (hup : uploadToGoogleDrive env job.outFilename = Except.ok url) :
    (∃ rest, (stopCallback env w vc job).log =
        w.log ++ job.inputFiles.map Effect.unlink
          ++ [Effect.upload job.outFilename,
              Effect.editReply ("Recording finished and uploaded: " ++ url)] ++ rest
        ∧ (rest = [] ∨ rest = [Effect.unlink job.outFilename]))
    ∧ (stopCallback env w vc job).files job.outFilename = none := by
  unfold stopCallback stopMixed
  simp only [herr, Bool.false_eq_true, if_false, hup]
  unfold stopUploaded
  simp only [destroyConnection_log, destroyConnection_files]
  refine ⟨?_, unlinkIfExists_files_self _ _⟩
  have hfold := (foldl_unlink_all job.inputFiles (runFfmpeg env w job) hnd hex).1
  rw [runFfmpeg_log] at hfold
  rcases unlinkIfExists_log_cases
      { (List.foldl unlinkIfExists (runFfmpeg env w job) job.inputFiles) with
        log := (List.foldl unlinkIfExists (runFfmpeg env w job) job.inputFiles).log ++
            [Effect.upload job.outFilename] ++
            [Effect.editReply ("Recording finished and uploaded: " ++ url)] }
      job.outFilename with hl | hl
  · refine ⟨[], ?_, Or.inl rfl⟩
    rw [hl]
    show (List.foldl unlinkIfExists (runFfmpeg env w job) job.inputFiles).log ++ _ ++ _ = _
    rw [hfold]
    simp
  · refine ⟨[Effect.unlink job.outFilename], ?_, Or.inr rfl⟩
    rw [hl]
    show (List.foldl unlinkIfExists (runFfmpeg env w job) job.inputFiles).log ++ _ ++ _ ++ _ = _
    rw [hfold]
    simp

/-- The callback of `exec` and what follows when mixing succeeded and the
upload threw an error. -/
theorem stopCallback_upload_error (env : Env) (w : World) (vc : VoiceChannel) (job : MixJob)
    (message : String) (hnd : job.inputFiles.Nodup)
    (hex : ∀ f ∈ job.inputFiles, ((runFfmpeg env w job).files f).isSome = true)
    (hout : job.outFilename ∉ job.inputFiles)
    (herr : env.ffmpegError = false)
    (hup : uploadToGoogleDrive env job.outFilename = Except.error message) :
    (stopCallback env w vc job).log =
        w.log ++ job.inputFiles.map Effect.unlink
          ++ [Effect.upload job.outFilename,
              Effect.editReply ("Failed to upload to Drive: " ++ message)]
    ∧ (stopCallback env w vc job).files job.outFilename
        = (runFfmpeg env w job).files job.outFilename := by
  unfold stopCallback stopMixed
  simp only [herr, Bool.false_eq_true, if_false, hup]
  unfold stopUploaded
  simp only [destroyConnection_log, destroyConnection_files]
  obtain ⟨hlog, hfiles⟩ := foldl_unlink_all job.inputFiles (runFfmpeg env w job) hnd hex
  rw [runFfmpeg_log] at hlog
  refine ⟨?_, ?_⟩
  · rw [hlog]; simp
  · rw [hfiles, if_neg hout]

theorem inputs_exist_after_ffmpeg (env : Env) (w w2 : World) (s : Session) (job : MixJob)
    (hf : w2.files = w.files) (hj : job.inputFiles = inputFilesOf env w.files s.keys) :
    ∀ f ∈ job.inputFiles, ((runFfmpeg env w2 job).files f).isSome = true := by
  intro f hfm
  rw [hj, mem_inputFilesOf] at hfm
  obtain ⟨-, size, hsz, -⟩ := hfm
  unfold runFfmpeg
  split
  · show (writeFile w2.files job.outFilename _ f).isSome = true
    unfold writeFile
    split
    · rfl
    · rw [hf, hsz]; rfl
  · rw [hf, hsz]; rfl

set_option maxRecDepth 8192

/-! ## Claims -/

/-- C1, as stated, fails.  On an empty registry `startRecording` is called for
the channel with alice in it, then again for the same channel with bob in it
and no stop in between.  The second call is not refused: it replies
`Recording started!` like the first.  The session registered afterwards is
not the one the first call created: it has a capture for bob and none for
alice. -/
theorem startRecording_twice_counterexample :
    startedTwice.log = [Effect.reply startedMsg false, Effect.reply startedMsg false]
    ∧ (startedOnce.recordings.get? sampleChannel.id).map JsObj.keys = some [alice.id]
    ∧ (startedTwice.recordings.get? sampleChannel.id).map JsObj.keys = some [bob.id]
    ∧ (startedTwice.recordings.get? sampleChannel.id).bind (fun s => s.get? alice.id) = none := by
  decide

/-- C1, amended.  A second `startRecording` for a channel with no stop in
between is not refused: it reports `Recording started!` (by `followUp` when
the interaction was replied to or deferred, by `reply` otherwise), and it
leaves exactly one session registered for the channel, a fresh one with the
captures of the non-bot members present at the second call. -/
theorem startRecording_twice_replaces_session (env : Env) (w : World) (i1 i2 : Interaction)
    (vc1 vc2 : VoiceChannel) (hc : vc2.id = vc1.id) :
    (startRecording env (startRecording env w i1 (some vc1)) i2 (some vc2)).log =
        (startRecording env w i1 (some vc1)).log ++
          [if i2.replied || i2.deferred then Effect.followUp startedMsg false
           else Effect.reply startedMsg false]
    ∧ (startRecording env (startRecording env w i1 (some vc1)) i2 (some vc2)).recordings.get? vc1.id
        = some (vc2.members.foldl (addCapture env) JsObj.empty)
    ∧ (startRecording env (startRecording env w i1 (some vc1)) i2 (some vc2)).recordings.keys.count
        vc1.id = 1 := by
  have h2 := startRecording_session env (startRecording env w i1 (some vc1)) i2 vc2
  rw [hc] at h2
  exact ⟨rfl, h2, count_keys_of_get? _ _ _ h2⟩

/-- Witness of `startRecording_twice_replaces_session` on the sample channel. -/
theorem startRecording_twice_replaces_session_witness :
    channelWithBob.id = channelWithAlice.id
    ∧ startedTwice.recordings.keys.count channelWithAlice.id = 1 :=
  ⟨rfl, (startRecording_twice_replaces_session sampleEnv emptyWorld sampleInteraction
    sampleInteraction channelWithAlice channelWithBob rfl).2.2⟩

/-- C2.  When `recordings` has no entry for the channel, `stopRecording` makes
one call, the ephemeral `No active recording in this channel.` (by `reply`
when the interaction was neither replied to nor deferred, by `followUp`
otherwise): no `exec`, no upload, no `unlink`.  The disk and `recordings`
are as they were. -/
theorem stopRecording_without_session (env : Env) (w : World) (i : Interaction)
    (vc : VoiceChannel) (h : w.recordings.get? vc.id = none) :
    (stopRecording env w i vc).log = w.log ++
        [if !i.replied && !i.deferred then Effect.reply noActiveMsg true
         else Effect.followUp noActiveMsg true]
    ∧ (stopRecording env w i vc).files = w.files
    ∧ (stopRecording env w i vc).recordings = w.recordings :=
  stopRecording_eq_of_no_session env w i vc h

/-- Witness of `stopRecording_without_session`: a stop on the empty registry. -/
theorem stopRecording_without_session_witness :
    emptyWorld.recordings.get? sampleChannel.id = none
    ∧ (stopRecording sampleEnv emptyWorld sampleInteraction sampleChannel).log
        = [Effect.reply noActiveMsg true] :=
  ⟨rfl, (stopRecording_without_session sampleEnv emptyWorld sampleInteraction sampleChannel
    rfl).1⟩

/-- C3.  With a session `s` registered for the channel, the list `inputFiles`
is the list of buffer paths of the keys of `s`, in the order of
`Object.keys`, restricted to those whose file exists with a size above zero;
no path occurs twice; the path of a participant is in it exactly when the
participant is a key of `s` and the buffer exists with a size above zero;
and it is the list carried to the mix command when there is one. -/
theorem inputFiles_nonempty_buffers (env : Env) (w : World) (vc : VoiceChannel) (c : Bool)
    (s : Session) (h : w.recordings.get? vc.id = some s) :
    inputFilesOf env w.files s.keys =
        (s.keys.filter (fun id => match w.files (pcmPath env id) with
          | some size => decide (size > 0)
          | none => false)).map (pcmPath env)
    ∧ (inputFilesOf env w.files s.keys).Nodup
    ∧ (∀ id, pcmPath env id ∈ inputFilesOf env w.files s.keys ↔
        id ∈ s.keys ∧ ∃ size, w.files (pcmPath env id) = some size ∧ 0 < size)
    ∧ (∀ job, (stopCollect env w vc c).2 = some job →
        job.inputFiles = inputFilesOf env w.files s.keys) := by
  refine ⟨inputFilesOf_eq_map_filter env w.files s.keys, ?_, ?_, ?_⟩
  · rw [inputFilesOf_eq_map_filter]
    exact ((JsObj.nodup_keys s).filter _).map (fun a b hab => pcmPath_injective env a b hab)
  · intro id
    rw [mem_inputFilesOf]
    constructor
    · rintro ⟨⟨j, hj, hp⟩, hsz⟩
      have := pcmPath_injective env j id hp
      subst this
      exact ⟨hj, hsz⟩
    · rintro ⟨hid, hsz⟩
      exact ⟨⟨id, hid, rfl⟩, hsz⟩
  · intro job hjob
    by_cases hin : inputFilesOf env w.files s.keys = []
    · rw [stopCollect_nothing env w vc c s h hin] at hjob
      cases hjob
    · rw [stopCollect_job env w vc c s h hin] at hjob
      simp only [Option.some.injEq] at hjob
      rw [← hjob]

/-- Witness of `inputFiles_nonempty_buffers`: in the sample session alice has
audio and bob has none, and the one input is her buffer. -/
theorem inputFiles_nonempty_buffers_witness :
    activeWorld.recordings.get? sampleChannel.id
        = some (sampleChannel.members.foldl (addCapture sampleEnv) JsObj.empty)
    ∧ inputFilesOf sampleEnv activeWorld.files
        (sampleChannel.members.foldl (addCapture sampleEnv) JsObj.empty).keys
        = ["/bot/Recordings/80351110224678912.pcm"] :=
  ⟨rfl, (inputFiles_nonempty_buffers sampleEnv activeWorld sampleChannel true
    (sampleChannel.members.foldl (addCapture sampleEnv) JsObj.empty) rfl).1.trans (by decide)⟩

/-- C4.  With a session registered for the channel and no participant whose
buffer exists with a size above zero (a session without captures included),
`stopRecording` defers the reply if it was not deferred and then edits it to
`No audio was recorded...`: these are its only calls, so no `exec`, no upload
and no `unlink`.  The disk is as it was, and the entry of the channel is
removed from `recordings`. -/
theorem stopRecording_nothing_recorded (env : Env) (w : World) (i : Interaction)
    (vc : VoiceChannel) (s : Session) (h : w.recordings.get? vc.id = some s)
    (hempty : ∀ id ∈ s.keys,
      w.files (pcmPath env id) = none ∨ w.files (pcmPath env id) = some 0) :
    (stopRecording env w i vc).log =
        w.log ++ (if i.deferred then [] else [Effect.deferReply])
          ++ [Effect.editReply nothingRecordedMsg]
    ∧ (stopRecording env w i vc).files = w.files
    ∧ (stopRecording env w i vc).recordings = w.recordings.delete vc.id
    ∧ (stopRecording env w i vc).recordings.get? vc.id = none := by
  obtain ⟨h1, h2, h3, h4⟩ := stopBegin_some_recordings w i vc s h
  unfold stopRecording
  generalize stopBegin w i vc = r at h1 h2 h3 h4
  obtain ⟨w1, c⟩ := r
  simp only at h1 h2 h3 h4
  subst h4
  simp only
  have hget : w1.recordings.get? vc.id = some (s.mapValues closeCapture) := by
    rw [h1, JsObj.get?_set_self]
  have hin : inputFilesOf env w1.files (s.mapValues closeCapture).keys = [] := by
    rw [h2, JsObj.keys_mapValues]
    exact inputFilesOf_eq_nil env w.files s.keys hempty
  rw [stopCollect_nothing env w1 vc _ _ hget hin]
  simp only [destroyConnection_log, destroyConnection_files, h3, h2, h1,
    JsObj.delete_set_self, JsObj.get?_delete_self, and_self]

/-- Witness of `stopRecording_nothing_recorded`: the sample session in which
nobody has spoken. -/
theorem stopRecording_nothing_recorded_witness :
    silentWorld.recordings.get? sampleChannel.id
        = some (sampleChannel.members.foldl (addCapture sampleEnv) JsObj.empty)
    ∧ (∀ id ∈ (sampleChannel.members.foldl (addCapture sampleEnv) JsObj.empty).keys,
        silentWorld.files (pcmPath sampleEnv id) = none
          ∨ silentWorld.files (pcmPath sampleEnv id) = some 0)
    ∧ (stopRecording sampleEnv silentWorld sampleInteraction sampleChannel).log
        = [Effect.deferReply, Effect.editReply nothingRecordedMsg]
    ∧ (stopRecording sampleEnv silentWorld sampleInteraction sampleChannel).recordings.get?
        sampleChannel.id = none :=
  ⟨rfl, by decide,
    (stopRecording_nothing_recorded sampleEnv silentWorld sampleInteraction sampleChannel
      (sampleChannel.members.foldl (addCapture sampleEnv) JsObj.empty) rfl (by decide)).1,
    (stopRecording_nothing_recorded sampleEnv silentWorld sampleInteraction sampleChannel
      (sampleChannel.members.foldl (addCapture sampleEnv) JsObj.empty) rfl (by decide)).2.2.2⟩

/-- C5, the run that breaks it.  In the sample session alice has audio, the
ffmpeg process succeeds and leaves the mixed file (4096 bytes), and
`uploadToGoogleDrive` throws because `token.json` is missing.  The final
message reports the error of the upload, the entry of the channel is removed
from `recordings`, and the mixed file is still on disk: the `catch` branch
of lines 187-191 has no `unlinkSync(outFilename)`, unlike the branch of
lines 180-186. -/
theorem stopRecording_upload_failure_keeps_artifact :
    (stopRecording sampleEnv activeWorld sampleInteraction sampleChannel).log =
      [Effect.deferReply, Effect.exec sampleCommand,
       Effect.unlink "/bot/Recordings/80351110224678912.pcm",
       Effect.upload sampleArtifact,
       Effect.editReply ("Failed to upload to Drive: " ++ tokenMissingMsg)]
    ∧ (stopRecording sampleEnv activeWorld sampleInteraction sampleChannel).recordings.get?
        sampleChannel.id = none
    ∧ (stopRecording sampleEnv activeWorld sampleInteraction sampleChannel).files sampleArtifact
        = some 4096 := by
  decide

/-- C6.  With a session registered for the channel, whatever the environment
decides (no buffer with audio, an ffmpeg error, an upload that succeeds, an
upload that fails), after `stopRecording` the registry `recordings` is the
one before the stop with the entry of the channel removed: it has no entry
for the channel. -/
theorem stopRecording_closes_session (env : Env) (w : World) (i : Interaction)
    (vc : VoiceChannel) (s : Session) (h : w.recordings.get? vc.id = some s) :
    (stopRecording env w i vc).recordings = w.recordings.delete vc.id
    ∧ (stopRecording env w i vc).recordings.get? vc.id = none := by
  have hr := stopRecording_recordings env w i vc s h
  exact ⟨hr, by rw [hr, JsObj.get?_delete_self]⟩

/-- Witness of `stopRecording_closes_session`: the sample session with audio,
stopped in an environment where the upload fails. -/
theorem stopRecording_closes_session_witness :
    activeWorld.recordings.get? sampleChannel.id
        = some (sampleChannel.members.foldl (addCapture sampleEnv) JsObj.empty)
    ∧ (stopRecording sampleEnv activeWorld sampleInteraction sampleChannel).recordings.get?
        sampleChannel.id = none :=
  ⟨rfl, (stopRecording_closes_session sampleEnv activeWorld sampleInteraction sampleChannel
    (sampleChannel.members.foldl (addCapture sampleEnv) JsObj.empty) rfl).2⟩

/-- C7, as stated, fails.  A first stop of the sample session is accepted and
sits in its one-second wait (`drainingWorld`); the session is still
registered.  A second stop trigger arriving then is accepted as well: it
does not answer `No active recording`, it defers its reply and goes into its
own wait.  When the two waits have ended, in the order they began, each stop
has found the session and the buffer of alice and has handed a mix command
to `exec`: a second pass has started. -/
theorem stop_during_stop_counterexample :
    (stopBegin activeWorld sampleInteraction sampleChannel).2 = some true
    ∧ (stopBegin drainingWorld sampleInteraction sampleChannel).2 = some true
    ∧ (stopBegin drainingWorld sampleInteraction sampleChannel).1.log
        = [Effect.deferReply, Effect.deferReply]
    ∧ (stopCollect sampleEnv firstPassWorld sampleChannel true).2 ≠ none
    ∧ secondPassWorld.log =
        [Effect.deferReply, Effect.deferReply, Effect.exec sampleCommand,
         Effect.exec sampleCommand] := by
  decide

/-- C7, amended.  With a session registered for the channel, once a first
`stopRecording` has finished, a later stop trigger on the channel makes one
call, the ephemeral `No active recording in this channel.`: no `exec`, no
upload, no `unlink`; the disk and `recordings` stay as the first stop left
them. -/
theorem stop_after_stop_no_active (env env2 : Env) (w : World) (i i2 : Interaction)
    (vc : VoiceChannel) (s : Session) (h : w.recordings.get? vc.id = some s) :
    (stopRecording env2 (stopRecording env w i vc) i2 vc).log =
        (stopRecording env w i vc).log ++
          [if !i2.replied && !i2.deferred then Effect.reply noActiveMsg true
           else Effect.followUp noActiveMsg true]
    ∧ (stopRecording env2 (stopRecording env w i vc) i2 vc).files =
        (stopRecording env w i vc).files
    ∧ (stopRecording env2 (stopRecording env w i vc) i2 vc).recordings =
        (stopRecording env w i vc).recordings := by
  apply stopRecording_eq_of_no_session
  rw [stopRecording_recordings env w i vc s h, JsObj.get?_delete_self]

/-- Witness of `stop_after_stop_no_active`: the sample session stopped twice. -/
theorem stop_after_stop_no_active_witness :
    activeWorld.recordings.get? sampleChannel.id
        = some (sampleChannel.members.foldl (addCapture sampleEnv) JsObj.empty)
    ∧ (stopRecording sampleEnv
        (stopRecording sampleEnv activeWorld sampleInteraction sampleChannel)
        sampleInteraction sampleChannel).log =
      (stopRecording sampleEnv activeWorld sampleInteraction sampleChannel).log
        ++ [Effect.reply noActiveMsg true] :=
  ⟨rfl, (stop_after_stop_no_active sampleEnv sampleEnv activeWorld sampleInteraction
    sampleInteraction sampleChannel
    (sampleChannel.members.foldl (addCapture sampleEnv) JsObj.empty) rfl).1⟩

/-- C8.  For a voice channel whose members have distinct ids (`members` is a
collection keyed by member id), after `startRecording` the session
registered for the channel has as keys exactly the ids of the members that
are not bots, each once; every such member has the capture built for it
(write stream on its buffer, receive stream of its id, decoder), and a bot
member has no entry. -/
theorem startRecording_captures (env : Env) (w : World) (i : Interaction) (vc : VoiceChannel)
    (hids : (vc.members.map Member.id).Nodup) :
    ∃ s, (startRecording env w i (some vc)).recordings.get? vc.id = some s
      ∧ (∀ id, id ∈ s.keys ↔ ∃ m ∈ vc.members, m.id = id ∧ m.bot = false)
      ∧ s.keys.Nodup
      ∧ (∀ m ∈ vc.members, m.bot = false → s.get? m.id = some (newCapture env m))
      ∧ (∀ m ∈ vc.members, m.bot = true → s.get? m.id = none) := by
  refine ⟨_, startRecording_session env w i vc, ?_, JsObj.nodup_keys _, ?_, ?_⟩
  · intro id
    rw [mem_keys_iff_get?_ne_none, get?_foldl_addCapture]
    split
    · rename_i h; simp [h]
    · rename_i h; simp [h, get?_empty]
  · intro m hm hb
    rw [get?_foldl_addCapture, if_pos ⟨m, hm, rfl, hb⟩]
    rfl
  · intro m hm hb
    have hno : ¬ ∃ x ∈ vc.members, x.id = m.id ∧ x.bot = false := by
      rintro ⟨x, hx, hxid, hxb⟩
      have : x = m := List.inj_on_of_nodup_map hids hx hm hxid
      rw [this, hb] at hxb
      exact absurd hxb (by decide)
    rw [get?_foldl_addCapture, if_neg hno]
    rfl

/-- Witness of `startRecording_captures`: the sample channel, two people and a bot. -/
theorem startRecording_captures_witness :
    (sampleChannel.members.map Member.id).Nodup
    ∧ ∃ s, (startRecording sampleEnv emptyWorld sampleInteraction
          (some sampleChannel)).recordings.get? sampleChannel.id = some s
      ∧ (∀ id, id ∈ s.keys ↔ ∃ m ∈ sampleChannel.members, m.id = id ∧ m.bot = false)
      ∧ s.keys.Nodup
      ∧ (∀ m ∈ sampleChannel.members, m.bot = false →
          s.get? m.id = some (newCapture sampleEnv m))
      ∧ (∀ m ∈ sampleChannel.members, m.bot = true → s.get? m.id = none) :=
  ⟨by decide, startRecording_captures sampleEnv emptyWorld sampleInteraction sampleChannel
    (by decide)⟩

/-- C9.  For a date whose year is in 1000..9999 (the getters being in their
ranges), `formatFilename(g, c, us)` is `g`, a blank, `c`, a blank, `us`
joined by a comma and a blank, a blank, the stamp, and `.aac`; the stamp is
the four digits of the year, then the two digits each of month + 1, day,
hours, minutes and seconds, joined by `-`, 19 characters in all. -/
theorem formatFilename_stamp (now : JsDate) (guild channel : String) (users : List String)
    (hy1 : 1000 ≤ now.fullYear) (hy2 : now.fullYear ≤ 9999) (hr : now.inRange) :
    formatFilename now guild channel users =
        guild ++ " " ++ channel ++ " " ++ ", ".intercalate users ++ " " ++ stamp now ++ ".aac"
    ∧ (stamp now).length = 19 := by
  obtain ⟨hm, -, hd, hh, hmin, hs⟩ := hr
  refine ⟨?_, stamp_length now⟩
  unfold formatFilename
  simp only
  rw [toString_four _ hy1 hy2, padStart_two _ (by omega), padStart_two _ (by omega),
    padStart_two _ (by omega), padStart_two _ (by omega), padStart_two _ (by omega)]
  rfl

/-- Witness of `formatFilename_stamp`: 9 March 2024, 07:05:03. -/
theorem formatFilename_stamp_witness :
    1000 ≤ sampleEnv.now.fullYear ∧ sampleEnv.now.fullYear ≤ 9999 ∧ sampleEnv.now.inRange
    ∧ formatFilename sampleEnv.now "Guild" "General" ["alice", "bob"]
        = "Guild General alice, bob 2024-03-09-07-05-03.aac" :=
  ⟨by decide, by decide, by unfold JsDate.inRange; decide,
    (formatFilename_stamp sampleEnv.now "Guild" "General" ["alice", "bob"] (by decide)
      (by decide) (by unfold JsDate.inRange; decide)).1.trans (by decide)⟩

/-- C10.  For a non-empty list of inputs `f1 :: fs`, the argument string
built by lines 163-167 is, for each input in list order, the options
`-f s16le -ar 48000 -ac 2 -i` with the quoted path, followed by the filter
`amix` with `inputs` equal to the number of inputs, `duration=first` and
`dropout_transition=2`, and the output options.  Under `duration=first`
the output of `amix` has the length of the first input: for inputs of
lengths `L1 < L2` it is `L1`, not `L2`. -/
theorem ffmpegCmd_mix_request (f1 : String) (fs : List String) (out : String) (L1 L2 : Nat)
    (h : L1 < L2) :
    ffmpegCmd (f1 :: fs) out =
        String.join ((f1 :: fs).map (fun f => "-f s16le -ar 48000 -ac 2 -i \"" ++ f ++ "\" "))
          ++ ("-filter_complex \"" ++ amixFilter (fs.length + 1) AmixDuration.first 2
          ++ "\" -ac 2 -c:a aac -b:a 128k -f adts \"" ++ out ++ "\"")
    ∧ ((f1 :: fs).map (fun f => "-f s16le -ar 48000 -ac 2 -i \"" ++ f ++ "\" ")).length
        = fs.length + 1
    ∧ amixOutputLength AmixDuration.first [L1, L2] = L1
    ∧ amixOutputLength AmixDuration.first [L1, L2] ≠ L2 := by
  refine ⟨?_, by simp, rfl, ?_⟩
  · unfold ffmpegCmd
    rw [foldl_append_join (fun f => "-f s16le -ar 48000 -ac 2 -i \"" ++ f ++ "\" ")]
    simp only [String.empty_append, List.length_cons]
    congr 1
    have h2 : toString 2 = "2" := rfl
    unfold amixFilter AmixDuration.name
    rw [h2]
    apply String.ext
    simp [String.data_append]
  · show L1 ≠ L2
    omega

/-- Witness of `ffmpegCmd_mix_request`: two buffers, of 3 and of 5 seconds. -/
theorem ffmpegCmd_mix_request_witness :
    3 < 5
    ∧ ffmpegCmd ["a.pcm", "b.pcm"] "out.aac" =
        "-f s16le -ar 48000 -ac 2 -i \"a.pcm\" -f s16le -ar 48000 -ac 2 -i \"b.pcm\" "
          ++ "-filter_complex \"amix=inputs=2:duration=first:dropout_transition=2\" "
          ++ "-ac 2 -c:a aac -b:a 128k -f adts \"out.aac\""
    ∧ amixOutputLength AmixDuration.first [3, 5] = 3 :=
  ⟨by decide, (ffmpegCmd_mix_request "a.pcm" ["b.pcm"] "out.aac" 3 5 (by decide)).1.trans
      (by decide),
    (ffmpegCmd_mix_request "a.pcm" ["b.pcm"] "out.aac" 3 5 (by decide)).2.2.1⟩

/-! ## Further properties of stopRecording -/

/-- Lines 169-177.  With a session registered for the channel and some buffer
with audio, when the callback of `exec` receives an error, `stopRecording`
defers the reply if it was not deferred, hands the mix command to `exec`,
unlinks every input, and edits the reply to `Error mixing the audio.`:
there is no upload call.  The entry of the channel is removed from
`recordings`. -/
theorem stopRecording_mix_error (env : Env) (w : World) (i : Interaction) (vc : VoiceChannel)
    (s : Session) (h : w.recordings.get? vc.id = some s)
    (hin : inputFilesOf env w.files s.keys ≠ []) (herr : env.ffmpegError = true) :
    (stopRecording env w i vc).log =
        w.log ++ (if i.deferred then [] else [Effect.deferReply])
          ++ [Effect.exec (execCommandOf env
                (mixJobOf env w.files vc (decide (vc.guildId ∈ w.connections)) s))]
          ++ (inputFilesOf env w.files s.keys).map Effect.unlink
          ++ [Effect.editReply mixErrorMsg]
    ∧ (stopRecording env w i vc).recordings.get? vc.id = none := by
  obtain ⟨-, h2, -, -⟩ := stopBegin_some_recordings w i vc s h
  refine ⟨?_, by rw [stopRecording_recordings env w i vc s h, JsObj.get?_delete_self]⟩
  rw [stopRecording_with_inputs env w i vc s h hin,
    stopCallback_mix_error env
      { (stopBegin w i vc).1 with
        log := w.log ++ (if i.deferred then [] else [Effect.deferReply]) ++
          [Effect.exec (execCommandOf env
            (mixJobOf env w.files vc (decide (vc.guildId ∈ w.connections)) s))] }
      vc (mixJobOf env w.files vc (decide (vc.guildId ∈ w.connections)) s)
      (inputFilesOf_nodup env w.files s) (inputs_exist_after_ffmpeg env w _ s _ h2 rfl) herr]
  rfl

/-- Lines 180-186.  With a session registered for the channel and some buffer
with audio, when the ffmpeg process ends without error and the upload
returns the link `url`, `stopRecording` hands the mix command to `exec`,
unlinks every input, calls the upload on the mixed file, edits the reply to
`Recording finished and uploaded: url`, and unlinks the mixed file if it is
there: afterwards there is no file at `outFilename`, and the entry of the
channel is removed from `recordings`. -/
theorem stopRecording_upload_success (env : Env) (w : World) (i : Interaction)
    (vc : VoiceChannel) (s : Session) (url : String)
    (h : w.recordings.get? vc.id = some s)
    (hin : inputFilesOf env w.files s.keys ≠ []) (herr : env.ffmpegError = false)
    (hup : uploadToGoogleDrive env
      (mixJobOf env w.files vc (decide (vc.guildId ∈ w.connections)) s).outFilename
        = Except.ok url) :
    (∃ rest, (stopRecording env w i vc).log =
        w.log ++ (if i.deferred then [] else [Effect.deferReply])
          ++ [Effect.exec (execCommandOf env
                (mixJobOf env w.files vc (decide (vc.guildId ∈ w.connections)) s))]
          ++ (inputFilesOf env w.files s.keys).map Effect.unlink
          ++ [Effect.upload
                (mixJobOf env w.files vc (decide (vc.guildId ∈ w.connections)) s).outFilename,
              Effect.editReply ("Recording finished and uploaded: " ++ url)]
          ++ rest
        ∧ (rest = [] ∨ rest = [Effect.unlink
            (mixJobOf env w.files vc (decide (vc.guildId ∈ w.connections)) s).outFilename]))
    ∧ (stopRecording env w i vc).files
        (mixJobOf env w.files vc (decide (vc.guildId ∈ w.connections)) s).outFilename = none
    ∧ (stopRecording env w i vc).recordings.get? vc.id = none := by
  obtain ⟨-, h2, -, -⟩ := stopBegin_some_recordings w i vc s h
  obtain ⟨⟨rest, hlog, hrest⟩, hfile⟩ := stopCallback_upload_ok env
    { (stopBegin w i vc).1 with
      log := w.log ++ (if i.deferred then [] else [Effect.deferReply]) ++
        [Effect.exec (execCommandOf env
          (mixJobOf env w.files vc (decide (vc.guildId ∈ w.connections)) s))] }
    vc (mixJobOf env w.files vc (decide (vc.guildId ∈ w.connections)) s) url
    (inputFilesOf_nodup env w.files s) (inputs_exist_after_ffmpeg env w _ s _ h2 rfl) herr hup
  rw [stopRecording_with_inputs env w i vc s h hin]
  exact ⟨⟨rest, hlog, hrest⟩, hfile,
    by rw [← stopRecording_with_inputs env w i vc s h hin,
      stopRecording_recordings env w i vc s h, JsObj.get?_delete_self]⟩

/-- Lines 187-191.  With a session registered for the channel and some buffer
with audio, when the ffmpeg process ends without error and the upload throws
an error with message `message`, `stopRecording` hands the mix command to
`exec`, unlinks every input, calls the upload on the mixed file and edits
the reply to `Failed to upload to Drive: ` followed by `message`; the entry
of the channel is removed from `recordings`. -/
theorem stopRecording_reports_upload_error (env : Env) (w : World) (i : Interaction)
    (vc : VoiceChannel) (s : Session) (message : String)
    (h : w.recordings.get? vc.id = some s)
    (hin : inputFilesOf env w.files s.keys ≠ []) (herr : env.ffmpegError = false)
    (hup : uploadToGoogleDrive env
      (mixJobOf env w.files vc (decide (vc.guildId ∈ w.connections)) s).outFilename
        = Except.error message) :
    (stopRecording env w i vc).log =
        w.log ++ (if i.deferred then [] else [Effect.deferReply])
          ++ [Effect.exec (execCommandOf env
                (mixJobOf env w.files vc (decide (vc.guildId ∈ w.connections)) s))]
          ++ (inputFilesOf env w.files s.keys).map Effect.unlink
          ++ [Effect.upload
                (mixJobOf env w.files vc (decide (vc.guildId ∈ w.connections)) s).outFilename,
              Effect.editReply ("Failed to upload to Drive: " ++ message)]
    ∧ (stopRecording env w i vc).recordings.get? vc.id = none := by
  obtain ⟨-, h2, -, -⟩ := stopBegin_some_recordings w i vc s h
  obtain ⟨hlog, -⟩ := stopCallback_upload_error env
    { (stopBegin w i vc).1 with
      log := w.log ++ (if i.deferred then [] else [Effect.deferReply]) ++
        [Effect.exec (execCommandOf env
          (mixJobOf env w.files vc (decide (vc.guildId ∈ w.connections)) s))] }
    vc (mixJobOf env w.files vc (decide (vc.guildId ∈ w.connections)) s) message
    (inputFilesOf_nodup env w.files s) (inputs_exist_after_ffmpeg env w _ s _ h2 rfl)
    (outFilename_not_input env w.files vc _ s) herr hup
  refine ⟨?_, by rw [stopRecording_recordings env w i vc s h, JsObj.get?_delete_self]⟩
  rw [stopRecording_with_inputs env w i vc s h hin, hlog]
  rfl

/-- Lines 63-65.  Called without a voice channel, `startRecording` replies
that the user must be in a voice channel and changes nothing else. -/
theorem startRecording_without_channel (env : Env) (w : World) (i : Interaction) :
    (startRecording env w i none).log = w.log ++ [Effect.reply needVoiceChannelMsg false]
    ∧ (startRecording env w i none).recordings = w.recordings
    ∧ (startRecording env w i none).connections = w.connections
    ∧ (startRecording env w i none).files = w.files :=
  ⟨rfl, rfl, rfl, rfl⟩

/-- Witness of `stopRecording_mix_error` on the sample session. -/
theorem stopRecording_mix_error_witness :
    activeWorld.recordings.get? sampleChannel.id
        = some (sampleChannel.members.foldl (addCapture sampleEnv) JsObj.empty)
    ∧ mixFailureEnv.ffmpegError = true
    ∧ (stopRecording mixFailureEnv activeWorld sampleInteraction sampleChannel).log =
        [Effect.deferReply, Effect.exec sampleCommand,
         Effect.unlink "/bot/Recordings/80351110224678912.pcm",
         Effect.editReply mixErrorMsg] :=
  ⟨rfl, rfl, (stopRecording_mix_error mixFailureEnv activeWorld sampleInteraction sampleChannel
    (sampleChannel.members.foldl (addCapture sampleEnv) JsObj.empty) rfl (by decide) rfl).1.trans
      (by decide)⟩

/-- Witness of `stopRecording_upload_success` on the sample session. -/
theorem stopRecording_upload_success_witness :
    activeWorld.recordings.get? sampleChannel.id
        = some (sampleChannel.members.foldl (addCapture sampleEnv) JsObj.empty)
    ∧ uploadToGoogleDrive uploadingEnv sampleArtifact
        = Except.ok "https://drive.google.com/file/d/1/view"
    ∧ (stopRecording uploadingEnv activeWorld sampleInteraction sampleChannel).files
        sampleArtifact = none :=
  ⟨rfl, rfl, (stopRecording_upload_success uploadingEnv activeWorld sampleInteraction
    sampleChannel (sampleChannel.members.foldl (addCapture sampleEnv) JsObj.empty)
    "https://drive.google.com/file/d/1/view" rfl (by decide) rfl rfl).2.1⟩

/-- Witness of `stopRecording_reports_upload_error` on the sample session. -/
theorem stopRecording_reports_upload_error_witness :
    activeWorld.recordings.get? sampleChannel.id
        = some (sampleChannel.members.foldl (addCapture sampleEnv) JsObj.empty)
    ∧ uploadToGoogleDrive sampleEnv sampleArtifact = Except.error tokenMissingMsg
    ∧ (stopRecording sampleEnv activeWorld sampleInteraction sampleChannel).recordings.get?
        sampleChannel.id = none :=
  ⟨rfl, rfl, (stopRecording_reports_upload_error sampleEnv activeWorld sampleInteraction
    sampleChannel (sampleChannel.members.foldl (addCapture sampleEnv) JsObj.empty)
    tokenMissingMsg rfl (by decide) rfl rfl).2⟩

end Recman
